import Mathlib

/-!
Shallow embedding of `streamRunnableUI` from `src/frontend/utils/server.tsx`
(gen-ui-python repository).  The file holds two variants of the function;
the first (lines 44–158 of the file) is embedded as `streamRunnableUI`,
the second (lines 253–327) as `streamRunnableUI2`.  JavaScript values the
code inspects are modelled by `JSVal`; the Vercel `ai/rsc` streams
(`createStreamableUI` / `createStreamableValue`) are modelled as
append-logs with a done counter, since the orchestrator only ever calls
`append` and `done` on them.
-/

set_option linter.unusedVariables false

namespace GenUI

/-- A JavaScript value, as far as the orchestrator inspects values:
`undefined`, `null`, strings, numbers, booleans, objects (ordered field
lists) and arrays. -/
inductive JSVal where
  | undefined : JSVal
  | null : JSVal
  | str : String → JSVal
  | int : Int → JSVal
  | bool : Bool → JSVal
  | obj : List (String × JSVal) → JSVal
  | arr : List JSVal → JSVal

/-- JS truthiness combined with `typeof x === "object"` — the guard
`output && typeof output === "object"` used by the source.  `null` is of
object type in JS but falsy, so only real objects and arrays pass. -/
def JSVal.isTruthyObject : JSVal → Bool
  | .obj _ => true
  | .arr _ => true
  | _ => false

/-- The JS `in` operator restricted to the shapes the source guards for:
`"k" in o` on an object checks for the key; arrays have no such string key. -/
def JSVal.hasField (v : JSVal) (k : String) : Bool :=
  match v with
  | .obj fields => fields.any (fun p => p.1 = k)
  | _ => false

/-- JS property read `o.k`: a missing key or a non-object base yields
`undefined` (the throwing bases `undefined`/`null` are handled separately
where the source can actually hit them). -/
def JSVal.get (v : JSVal) (k : String) : JSVal :=
  match v with
  | .obj fields =>
    match fields.find? (fun p => p.1 = k) with
    | some p => p.2
    | none => .undefined
  | _ => .undefined

/-- Errors a pass can raise: `typeError` models an incidental JS
`TypeError` (e.g. reading a property of `undefined`), `error` models an
explicit `throw new Error(msg)`. -/
inductive JsErr where
  | typeError : String → JsErr
  | error : String → JsErr
deriving Repr, DecidableEq

/-- Evaluation of `x.length > 0` as the source uses it on `output.tool_calls`:
reading `.length` of `undefined`/`null` throws a `TypeError`; arrays and
strings report their length; other primitives have an `undefined` length
(`undefined > 0` is false); a plain object reports a numeric `length`
field if present. -/
def jsLenPos : JSVal → Except JsErr Bool
  | .undefined => .error (.typeError "Cannot read properties of undefined (reading length)")
  | .null => .error (.typeError "Cannot read properties of null (reading length)")
  | .arr elems => .ok (decide (0 < elems.length))
  | .str s => .ok (decide (0 < s.length))
  | .obj fields =>
    .ok (match (JSVal.obj fields).get "length" with
         | .int n => decide (0 < n)
         | _ => false)
  | _ => .ok false

/-- Indexing `x[0]` as used on `output.tool_calls` (guarded nonempty by the source). -/
def jsIndex0 : JSVal → JSVal
  | .arr (v :: _) => v
  | _ => .undefined

/-- Property read `o.k` where `o` may be `undefined`/`null`, which throws in JS — used for
the unguarded `output.tool_result` read of the second variant. -/
def jsGetE (v : JSVal) (k : String) : Except JsErr JSVal :=
  match v with
  | .undefined => .error (.typeError ("Cannot read properties of undefined (reading " ++ k ++ ")"))
  | .null => .error (.typeError ("Cannot read properties of null (reading " ++ k ++ ")"))
  | _ => .ok (v.get k)

/-- JS `String.prototype.split` on a single separator character, as JS does it
(structurally recursive so that proofs can evaluate it). -/
def splitAux (c : Char) : List Char → List Char → List String
  | [], acc => [String.mk acc.reverse]
  | x :: xs, acc =>
    if x = c then String.mk acc.reverse :: splitAux c xs []
    else splitAux c xs (x :: acc)

/-- The call `ev.split("_")`. -/
def jsSplit (s : String) (c : Char) : List String :=
  splitAux c s.data []

/-- The destructuring `const [type] = streamEvent.event.split("_").slice(2)` — the third
underscore-separated component of the event name, or `undefined` (`none`). -/
def eventType (ev : String) : Option String :=
  ((jsSplit ev '_').drop 2).head?

/-- The record `streamEvent.data` — only the `output` and `chunk` fields are read. -/
structure EventData where
  output : JSVal := .undefined
  chunk : JSVal := .undefined

/-- A LangChain `StreamEvent`, restricted to the fields the source reads. -/
structure StreamEvent where
  event : String
  name : String
  run_id : String
  data : EventData

/-- One entry of `TOOL_COMPONENT_MAP`: the pair of `loading`/`final`
fragment factories.  Each map entry renders the components of exactly one
tool, so the entry is identified by its tool key. -/
structure ToolComponent where
  name : String
deriving Repr, DecidableEq

/-- A rendered React node: a tool's loading component, or its final
component applied to the tool-result props. -/
inductive UINode where
  | loading : String → UINode
  | final : String → JSVal → UINode

/-- The call `selectedToolComponent.loading()`. -/
def ToolComponent.loading (c : ToolComponent) : UINode :=
  .loading c.name

/-- The call `selectedToolComponent.final(toolData)`. -/
def ToolComponent.final (c : ToolComponent) (props : JSVal) : UINode :=
  .final c.name props

/-- The map `TOOL_COMPONENT_MAP` — entries for "github-repo", "invoice-parser" and
"weather-data"; any other key reads as `undefined` (`none`). -/
def TOOL_COMPONENT_MAP (tool : String) : Option ToolComponent :=
  if tool = "github-repo" ∨ tool = "invoice-parser" ∨ tool = "weather-data" then
    some ⟨tool⟩
  else none

/-- The lookup `TOOL_COMPONENT_MAP[toolCall.type]` — a JS computed member lookup; the
source only ever hits it with string keys, any non-string misses. -/
def toolMapLookup : JSVal → Option ToolComponent
  | .str s => TOOL_COMPONENT_MAP s
  | _ => none

/-- A fragment appended to the outer UI sink: the live handle of the
selected tool's inner `createStreamableUI` (variant 1), the
`<AIMessage value={textStream.value}/>` handle of a run's
`createStreamableValue`, a directly rendered node (variant 2), or the
`undefined` appended by variant 2's optional chaining. -/
inductive Fragment where
  | toolStreamHandle : Nat → Fragment
  | textStreamHandle : String → Fragment
  | node : UINode → Fragment
  | undefinedFrag : Fragment

/-- The outer `createStreamableUI()` sink: ordered appended fragments plus
how many times `done()` was called on it. -/
structure UIStream where
  items : List Fragment
  doneCount : Nat

/-- The call `ui.append(fragment)`. -/
def UIStream.append (u : UIStream) (f : Fragment) : UIStream :=
  { u with items := u.items ++ [f] }

/-- A per-run `createStreamableValue()` text stream: the values appended so
far and whether `done()` has been called. -/
structure TextStream where
  chunks : List JSVal
  closed : Bool

/-- The inner `createStreamableUI(initial)` of the selected tool: its
initial node and the nodes passed to `done(...)` (one per finalize). -/
structure ToolUIStream where
  initial : UINode
  dones : List UINode

/-- Association-list lookup for the `callbacks` record (a JS object keyed
by run id; string keys iterate in insertion order). -/
def lookupCb (k : String) : List (String × TextStream) → Option TextStream
  | [] => none
  | (k', ts) :: rest => if k' = k then some ts else lookupCb k rest

/-- The call `callbacks[runId].append(v)` — append a value to the run's text stream. -/
def appendCb (k : String) (v : JSVal) : List (String × TextStream) → List (String × TextStream)
  | [] => []
  | (k', ts) :: rest =>
    if k' = k then (k', { ts with chunks := ts.chunks ++ [v] }) :: rest
    else (k', ts) :: appendCb k v rest

/-- Replace the `idx`-th tool stream (there is at most one in practice). -/
def modifyAt (l : List ToolUIStream) (idx : Nat) (f : ToolUIStream → ToolUIStream) :
    List ToolUIStream :=
  match l, idx with
  | [], _ => []
  | x :: xs, 0 => f x :: xs
  | x :: xs, n + 1 => x :: modifyAt xs n f

/-- The mutable state of one `streamRunnableUI` pass (first variant):
the outer sink `ui`, the `callbacks` map of per-run text streams,
`selectedToolComponent`/`selectedToolUI` (the latter an index into
`toolStreams`, the log of inner tool-placeholder streams created),
`lastEventValue`, and the resolution state of the `lastEvent` promise
(`none` while unresolved). -/
structure OrchState where
  ui : UIStream
  callbacks : List (String × TextStream)
  selectedToolComponent : Option ToolComponent
  selectedToolUI : Option Nat
  toolStreams : List ToolUIStream
  lastEventValue : Option StreamEvent
  terminal : Option JSVal

/-- State at the top of the async pass. -/
def initState : OrchState :=
  { ui := ⟨[], 0⟩, callbacks := [], selectedToolComponent := none,
    selectedToolUI := none, toolStreams := [], lastEventValue := none,
    terminal := none }

/-- Handler `handleInvokeModelEvent` (first variant, lines 81–92): on a tool-call
bearing output, if no tool component is selected yet, look the tool up in
`TOOL_COMPONENT_MAP`, create the inner loading stream and append its
handle to the sink; the lookup result is assigned *before* `.loading()` is
called, so an unmapped tool name throws a `TypeError` reading `loading` of
`undefined`. -/
def handleInvokeModelEvent (s : OrchState) (output : JSVal) : Except JsErr OrchState :=
  if output.hasField "tool_calls" then
    match jsLenPos (output.get "tool_calls") with
    | .error err => .error err
    | .ok lenPos =>
      if lenPos then
        let toolCall := jsIndex0 (output.get "tool_calls")
        if s.selectedToolComponent = none ∧ s.selectedToolUI = none then
          match toolMapLookup (toolCall.get "type") with
          | none =>
            .error (.typeError "Cannot read properties of undefined (reading loading)")
          | some comp =>
            let idx := s.toolStreams.length
            .ok { s with
              selectedToolComponent := some comp
              selectedToolUI := some idx
              toolStreams := s.toolStreams ++ [⟨comp.loading, []⟩]
              ui := s.ui.append (.toolStreamHandle idx) }
        else .ok s
      else .ok s
  else .ok s

/-- Handler `handleInvokeToolsEvent` (first variant, lines 100–105): if a tool UI
and component are selected, call `done` on the inner stream with the final
component applied to `output.tool_result`; otherwise do nothing. -/
def handleInvokeToolsEvent (s : OrchState) (output : JSVal) : OrchState :=
  match s.selectedToolUI, s.selectedToolComponent with
  | some idx, some comp =>
    let toolData := output.get "tool_result"
    let push := fun ts : ToolUIStream => { ts with dones := ts.dones ++ [comp.final toolData] }
    { s with toolStreams := modifyAt s.toolStreams idx push }
  | _, _ => s

/-- Handler `handleChatModelStreamEvent` (first variant, lines 115–128): create the
run's text stream on first sight (appending an `AIMessage` handle to the
sink and registering the stream under the run id), then append
`chunk.content` to it. -/
def handleChatModelStreamEvent (s : OrchState) (runId : String) (chunk : JSVal) : OrchState :=
  let s1 :=
    match lookupCb runId s.callbacks with
    | none =>
      { s with
        ui := s.ui.append (.textStreamHandle runId),
        callbacks := s.callbacks ++ [(runId, TextStream.mk [] false)] }
    | some _ => s
  { s1 with callbacks := appendCb runId (chunk.get "content") s1.callbacks }

/-- The first `if` block of the loop body (lines 130–136): on an `end`
event with a truthy object `output`, dispatch on the step name to the
`invoke_model` / `invoke_tools` handlers. -/
def dispatchEnd (s : OrchState) (e : StreamEvent) : Except JsErr OrchState :=
  if eventType e.event = some "end" ∧ e.data.output.isTruthyObject = true then
    if e.name = "invoke_model" then handleInvokeModelEvent s e.data.output
    else if e.name = "invoke_tools" then .ok (handleInvokeToolsEvent s e.data.output)
    else .ok s
  else .ok s

/-- The second `if` block of the loop body (lines 138–144): the
`on_chat_model_stream` handler, guarded by a truthy object `chunk`. -/
def dispatchChat (s : OrchState) (e : StreamEvent) : OrchState :=
  if e.event = "on_chat_model_stream" ∧ e.data.chunk.isTruthyObject = true then
    handleChatModelStreamEvent s e.run_id e.data.chunk
  else s

/-- The handler dispatch of one loop iteration of the first variant:
the `end`-event block, then the token-chunk block. -/
def stepHandlers (s : OrchState) (e : StreamEvent) : Except JsErr OrchState :=
  match dispatchEnd s e with
  | .error err => .error err
  | .ok s1 => .ok (dispatchChat s1 e)

/-- One whole iteration of the `for await` loop (lines 66–147): the
handler dispatch followed by `lastEventValue = streamEvent`. -/
def step (s : OrchState) (e : StreamEvent) : Except JsErr OrchState :=
  match stepHandlers s e with
  | .error err => .error err
  | .ok s2 => .ok { s2 with lastEventValue := some e }

/-- Result of one whole pass: `ok` is normal completion (after the
`resolve`/`done` epilogue ran), `failed` is an error thrown out of the
loop body, carrying the state at the throw — the epilogue never runs on
that path, as the async IIFE has no `try`/`finally`. -/
inductive RunResult where
  | ok : OrchState → RunResult
  | failed : JsErr → OrchState → RunResult

/-- The `for await` loop: thread the state through `step`; a thrown error
aborts the iteration with the state as of the failing event (a failing
`handleInvokeModelEvent` mutates nothing before throwing: the only
assignment before the throw re-assigns the already-`none`
`selectedToolComponent` to `undefined`). -/
def runLoop (s : OrchState) : List StreamEvent → RunResult
  | [] => .ok s
  | e :: rest =>
    match step s e with
    | .ok s' => runLoop s' rest
    | .error err => .failed err s

/-- The value `lastEventValue?.data.output` at the time of `resolve`. -/
def lastOutputVal (s : OrchState) : JSVal :=
  match s.lastEventValue with
  | none => .undefined
  | some e => e.data.output

/-- The epilogue after the loop (lines 149–154): resolve the `lastEvent`
promise with `lastEventValue?.data.output`, call `done()` on every
callback text stream, and close the outer sink. -/
def finish (s : OrchState) : OrchState :=
  { s with
    terminal := some (lastOutputVal s)
    callbacks := s.callbacks.map (fun p => (p.1, { p.2 with closed := true }))
    ui := { s.ui with doneCount := s.ui.doneCount + 1 } }

/-- Function `streamRunnableUI` (first variant, lines 44–158), as a function of the
event sequence the runnable produces: run the loop from the initial state
and, on normal completion, run the epilogue. -/
def streamRunnableUI (events : List StreamEvent) : RunResult :=
  match runLoop initState events with
  | .ok s => .ok (finish s)
  | .failed err s => .failed err s

/-- The state a pass ends in, however it ends. -/
def RunResult.stateOf : RunResult → OrchState
  | .ok s => s
  | .failed _ s => s

/-- Whether a pass completed without a thrown error. -/
def RunResult.isOk : RunResult → Bool
  | .ok _ => true
  | .failed _ _ => false

/-- The test `typeof x === "string"`. -/
def JSVal.isString : JSVal → Bool
  | .str _ => true
  | _ => false

/-- The mutable state of one pass of the second `streamRunnableUI` variant
(lines 253–327): it keeps a single `selectedTool` component (no inner tool
stream — loading and final nodes are appended to the sink directly). -/
structure Orch2State where
  ui : UIStream
  callbacks : List (String × TextStream)
  selectedTool : Option ToolComponent
  lastEventValue : Option StreamEvent
  terminal : Option JSVal

/-- Initial state of the second variant's pass. -/
def init2State : Orch2State :=
  { ui := ⟨[], 0⟩, callbacks := [], selectedTool := none,
    lastEventValue := none, terminal := none }

/-- A step result that keeps the state reached when an error is thrown
(the second variant assigns `selectedTool` before throwing). -/
inductive Step2Res where
  | ok : Orch2State → Step2Res
  | err : JsErr → Orch2State → Step2Res

/-- One iteration of the second variant's loop (lines 277–316).  On an
`invoke_model` end with a tool call it *always* appends a fresh loading
node (no already-open check) and throws `"Selected tool not found in tool
map."` for an unmapped tool; on a plain string `result` it creates/appends
the run's text stream; on an `invoke_tools` end it reads
`output.tool_result` without an object guard (throwing on `undefined`)
and appends `selectedTool?.final(toolData)` — `undefined` when no tool
was ever selected. -/
def step2 (s : Orch2State) (e : StreamEvent) : Step2Res :=
  let output := e.data.output
  let type := eventType e.event
  if output.isTruthyObject = true ∧ type = some "end" ∧ e.name = "invoke_model" then
    match (if output.hasField "tool_calls" then jsLenPos (output.get "tool_calls")
           else .ok false : Except JsErr Bool) with
    | .error err => .err err s
    | .ok true =>
      let toolCall := jsIndex0 (output.get "tool_calls")
      match toolMapLookup (toolCall.get "type") with
      | none => .err (.error "Selected tool not found in tool map.")
                     { s with selectedTool := none }
      | some comp =>
        .ok { s with
          selectedTool := some comp,
          ui := s.ui.append (.node comp.loading),
          lastEventValue := some e }
    | .ok false =>
      if output.hasField "result" ∧ (output.get "result").isString = true then
        let s1 :=
          match lookupCb e.run_id s.callbacks with
          | none =>
            if e.name = "invoke_model" then
              { s with
                ui := s.ui.append (.textStreamHandle e.run_id),
                callbacks := s.callbacks ++ [(e.run_id, TextStream.mk [] false)] }
            else s
          | some _ => s
        let s2 :=
          match lookupCb e.run_id s1.callbacks with
          | some _ => { s1 with callbacks := appendCb e.run_id (output.get "result") s1.callbacks }
          | none => s1
        .ok { s2 with lastEventValue := some e }
      else .ok { s with lastEventValue := some e }
  else if type = some "end" ∧ e.name = "invoke_tools" then
    match jsGetE output "tool_result" with
    | .error err => .err err s
    | .ok toolData =>
      let frag :=
        match s.selectedTool with
        | some comp => Fragment.node (comp.final toolData)
        | none => Fragment.undefinedFrag
      .ok { s with ui := s.ui.append frag, lastEventValue := some e }
  else .ok { s with lastEventValue := some e }

/-- Result of a whole pass of the second variant. -/
inductive Run2Result where
  | ok : Orch2State → Run2Result
  | failed : JsErr → Orch2State → Run2Result

/-- The second variant's `for await` loop. -/
def runLoop2 (s : Orch2State) : List StreamEvent → Run2Result
  | [] => .ok s
  | e :: rest =>
    match step2 s e with
    | .ok s' => runLoop2 s' rest
    | .err err sf => .failed err sf

/-- The second variant's epilogue (lines 319–324). -/
def finish2 (s : Orch2State) : Orch2State :=
  { s with
    terminal := some (match s.lastEventValue with
                      | none => JSVal.undefined
                      | some e => e.data.output)
    callbacks := s.callbacks.map (fun p => (p.1, { p.2 with closed := true }))
    ui := { s.ui with doneCount := s.ui.doneCount + 1 } }

/-- Function `streamRunnableUI` (second variant, lines 253–327). -/
def streamRunnableUI2 (events : List StreamEvent) : Run2Result :=
  match runLoop2 init2State events with
  | .ok s => .ok (finish2 s)
  | .failed err s => .failed err s

/-! ### Derived observations and scenario events -/

/-- A token-chunk event of run `r` carrying the text `c`
(`on_chat_model_stream` events have a `chunk`, no `output`). -/
def mkChunk (r c : String) : StreamEvent :=
  { event := "on_chat_model_stream", name := "ChatOpenAI", run_id := r,
    data := { output := .undefined, chunk := .obj [("content", .str c)] } }

/-- An `invoke_model` end event selecting the tool named `t`. -/
def mkToolSelect (r t : String) : StreamEvent :=
  { event := "on_chain_end", name := "invoke_model", run_id := r,
    data := { output := .obj [("tool_calls", .arr [.obj [("type", .str t)]])],
              chunk := .undefined } }

/-- An `invoke_tools` end event delivering the tool result `res`. -/
def mkToolResult (r : String) (res : JSVal) : StreamEvent :=
  { event := "on_chain_end", name := "invoke_tools", run_id := r,
    data := { output := .obj [("tool_result", res)], chunk := .undefined } }

/-- An inert event that carries an output payload but touches no handler. -/
def mkPlainOutput (r : String) (out : JSVal) : StreamEvent :=
  { event := "on_chain_end", name := "some_other_step", run_id := r,
    data := { output := out, chunk := .undefined } }

/-- An inert start event carrying no output. -/
def mkStart (r : String) : StreamEvent :=
  { event := "on_chain_start", name := "some_other_step", run_id := r,
    data := { output := .undefined, chunk := .undefined } }

/-- The payload of the last event of a sequence (`undefined` when the
sequence is empty or the last event has no `output` field). -/
def lastOutputOf (events : List StreamEvent) : JSVal :=
  match events.getLast? with
  | none => .undefined
  | some e => e.data.output

/-- Whether a sink fragment is the handle of a tool-placeholder stream. -/
def Fragment.isToolHandle : Fragment → Bool
  | .toolStreamHandle _ => true
  | _ => false

/-- How many tool-placeholder handles a fragment list holds. -/
def countTool (items : List Fragment) : Nat :=
  (items.filter Fragment.isToolHandle).length

/-- The text contributed by one appended value (non-strings render empty). -/
def jsStringOf : JSVal → String
  | .str s => s
  | _ => ""

/-- The accumulated content of a text stream: its chunks concatenated in
arrival order. -/
def TextStream.accumulated (ts : TextStream) : String :=
  String.join (ts.chunks.map jsStringOf)

/-! ### Small computational facts used by the proofs -/

theorem eventType_chain_end : eventType "on_chain_end" = some "end" := rfl

theorem eventType_chain_start : eventType "on_chain_start" = some "start" := rfl

theorem eventType_chat_stream : eventType "on_chat_model_stream" = some "model" := rfl

theorem model_ne_end : ¬(("model" : String) = "end") := by decide

theorem start_ne_end : ¬(("start" : String) = "end") := by decide

theorem chain_end_ne_chat : ¬(("on_chain_end" : String) = "on_chat_model_stream") := by decide

theorem chain_start_ne_chat : ¬(("on_chain_start" : String) = "on_chat_model_stream") := by decide

theorem tools_ne_model : ¬(("invoke_tools" : String) = "invoke_model") := by decide

theorem other_ne_model : ¬(("some_other_step" : String) = "invoke_model") := by decide

theorem other_ne_tools : ¬(("some_other_step" : String) = "invoke_tools") := by decide

/-! ### Case-analysis lemmas over the loop body -/

/-- Case analysis on a successful `handleInvokeModelEvent`: it returns the
state unchanged, or opens a fresh placeholder (only from an empty
selection). -/
theorem him_cases {s : OrchState} {o : JSVal} {s' : OrchState}
    (h : handleInvokeModelEvent s o = .ok s')
    (P : OrchState → Prop) (hP : P s)
    (hopen : ∀ comp : ToolComponent, s.selectedToolComponent = none → s.selectedToolUI = none →
      P { s with
            selectedToolComponent := some comp,
            selectedToolUI := some s.toolStreams.length,
            toolStreams := s.toolStreams ++ [⟨comp.loading, []⟩],
            ui := s.ui.append (.toolStreamHandle s.toolStreams.length) }) :
    P s' := by
  unfold handleInvokeModelEvent at h
  split at h
  · split at h
    · exact absurd h (by simp)
    · split at h
      · dsimp only [] at h
        split at h
        · rename_i hg
          split at h
          · exact absurd h (by simp)
          · rename_i comp _
            simp only [Except.ok.injEq] at h
            subst h
            exact hopen comp hg.1 hg.2
        · simp only [Except.ok.injEq] at h
          subst h
          exact hP
      · simp only [Except.ok.injEq] at h
        subst h
        exact hP
  · simp only [Except.ok.injEq] at h
    subst h
    exact hP

/-- Case analysis on `handleInvokeToolsEvent`: skip, or transition the
selected placeholder in place. -/
theorem hit_cases (s : OrchState) (o : JSVal)
    (P : OrchState → Prop) (hP : P s)
    (hfin : ∀ (idx : Nat) (comp : ToolComponent),
      s.selectedToolUI = some idx → s.selectedToolComponent = some comp →
      P { s with toolStreams := (modifyAt s.toolStreams idx
            (fun ts => { ts with dones := ts.dones ++ [comp.final (o.get "tool_result")] })) }) :
    P (handleInvokeToolsEvent s o) := by
  unfold handleInvokeToolsEvent
  split
  · rename_i idx comp hui hcomp
    exact hfin idx comp hui hcomp
  · exact hP

/-- Case analysis on `handleChatModelStreamEvent`: first chunk of a run
(create, register, append) or a continuing chunk (append only). -/
theorem hcs_cases (s : OrchState) (r : String) (c : JSVal)
    (P : OrchState → Prop)
    (hnew : lookupCb r s.callbacks = none →
      P { s with
            ui := s.ui.append (.textStreamHandle r),
            callbacks := (appendCb r (c.get "content") (s.callbacks ++ [(r, TextStream.mk [] false)])) })
    (hold : ∀ ts, lookupCb r s.callbacks = some ts →
      P { s with callbacks := (appendCb r (c.get "content") s.callbacks) }) :
    P (handleChatModelStreamEvent s r c) := by
  unfold handleChatModelStreamEvent
  split
  · rename_i hlk
    exact hnew hlk
  · rename_i ts hlk
    exact hold ts hlk

/-- Case analysis on a successful `dispatchEnd`. -/
theorem dispatchEnd_pres {P : OrchState → Prop} {s : OrchState} {e : StreamEvent}
    {s' : OrchState} (h : dispatchEnd s e = .ok s') (hP : P s)
    (him : ∀ o s₁, handleInvokeModelEvent s o = .ok s₁ → P s₁)
    (hit : ∀ o, P (handleInvokeToolsEvent s o)) :
    P s' := by
  unfold dispatchEnd at h
  split at h
  · split at h
    · exact him _ _ h
    · split at h
      · simp only [Except.ok.injEq] at h
        subst h
        exact hit _
      · simp only [Except.ok.injEq] at h
        subst h
        exact hP
  · simp only [Except.ok.injEq] at h
    subst h
    exact hP

/-- Stage `dispatchChat` keeps any property the chat handler keeps. -/
theorem dispatchChat_pres {P : OrchState → Prop} (s : OrchState) (e : StreamEvent)
    (hP : P s)
    (hcs : ∀ r c, P (handleChatModelStreamEvent s r c)) :
    P (dispatchChat s e) := by
  unfold dispatchChat
  split
  · exact hcs _ _
  · exact hP

/-- Case analysis on a successful `step`. -/
theorem step_pres {P : OrchState → Prop} {s : OrchState} {e : StreamEvent}
    {s' : OrchState} (h : step s e = .ok s') (hP : P s)
    (him : ∀ o s₁, handleInvokeModelEvent s o = .ok s₁ → P s₁)
    (hit : ∀ o, P (handleInvokeToolsEvent s o))
    (hcs : ∀ s₁, P s₁ → ∀ r c, P (handleChatModelStreamEvent s₁ r c))
    (hlast : ∀ s₁, P s₁ → ∀ ev : StreamEvent, P { s₁ with lastEventValue := some ev }) :
    P s' := by
  unfold step stepHandlers at h
  split at h
  · exact absurd h (by simp)
  · rename_i s2 heq
    simp only [Except.ok.injEq] at h
    subst h
    split at heq
    · exact absurd heq (by simp)
    · rename_i s1 heq1
      simp only [Except.ok.injEq] at heq
      subst heq
      have h1 : P s1 := dispatchEnd_pres heq1 hP him hit
      exact hlast _ (dispatchChat_pres s1 e h1 (fun r c => hcs s1 h1 r c)) e

/-- The state a pass reaches — completed or failed — keeps any property
every step preserves. -/
theorem runLoop_pres {P : OrchState → Prop}
    (hstep : ∀ s e s', step s e = .ok s' → P s → P s') :
    ∀ (evs : List StreamEvent) (s : OrchState), P s → P (runLoop s evs).stateOf := by
  intro evs
  induction evs with
  | nil => intro s hs; exact hs
  | cons e rest ih =>
    intro s hs
    unfold runLoop
    cases hst : step s e with
    | ok s1 =>
      have := ih s1 (hstep _ _ _ hst hs)
      simpa using this
    | error err => simpa using hs

/-- Every successful step records the event as `lastEventValue`. -/
theorem step_lastEvent {s : OrchState} {e : StreamEvent} {s' : OrchState}
    (h : step s e = .ok s') : s'.lastEventValue = some e := by
  unfold step at h
  split at h
  · exact absurd h (by simp)
  · simp only [Except.ok.injEq] at h
    subst h
    rfl

/-- A tool-call bearing `invoke_model` end event is silently skipped
whenever a tool component or tool UI is already selected: no error, no
state change beyond `lastEventValue`. -/
theorem step_toolcall_skip (s : OrchState) (e : StreamEvent)
    (hsel : ¬(s.selectedToolComponent = none ∧ s.selectedToolUI = none))
    (hev : e.event = "on_chain_end") (hn : e.name = "invoke_model")
    (hobj : e.data.output.isTruthyObject = true)
    (htc : e.data.output.hasField "tool_calls" = true)
    (hlen : jsLenPos (e.data.output.get "tool_calls") = .ok true) :
    step s e = .ok { s with lastEventValue := some e } := by
  unfold step stepHandlers dispatchEnd dispatchChat handleInvokeModelEvent
  simp [hev, hn, hobj, htc, hlen, hsel, eventType_chain_end, chain_end_ne_chat]

/-- An `invoke_tools` end event with no selected tool UI is silently
skipped: no error, nothing appended, only `lastEventValue` changes. -/
theorem step_tools_skip (s : OrchState) (e : StreamEvent)
    (hui : s.selectedToolUI = none)
    (hev : e.event = "on_chain_end") (hn : e.name = "invoke_tools") :
    step s e = .ok { s with lastEventValue := some e } := by
  unfold step stepHandlers dispatchEnd dispatchChat handleInvokeToolsEvent
  simp [hev, hn, hui, eventType_chain_end, chain_end_ne_chat, tools_ne_model]

/-- An `invoke_tools` end event with a selected tool calls `done` on the
selected inner stream with the final node, and leaves the selection — the
"currently open" record — untouched. -/
theorem step_tools_finalize (s : OrchState) (e : StreamEvent)
    (idx : Nat) (comp : ToolComponent)
    (hui : s.selectedToolUI = some idx) (hcomp : s.selectedToolComponent = some comp)
    (hev : e.event = "on_chain_end") (hn : e.name = "invoke_tools")
    (hobj : e.data.output.isTruthyObject = true) :
    step s e = .ok { s with
      toolStreams := (modifyAt s.toolStreams idx
        (fun ts => { ts with dones := ts.dones ++ [comp.final (e.data.output.get "tool_result")] })),
      lastEventValue := some e } := by
  unfold step stepHandlers dispatchEnd dispatchChat handleInvokeToolsEvent
  simp [hev, hn, hui, hcomp, hobj, eventType_chain_end, chain_end_ne_chat, tools_ne_model]

/-- A tool-call for a name missing from `TOOL_COMPONENT_MAP`, hit with no
selection open, throws the `TypeError` of reading `.loading` on
`undefined`. -/
theorem step_unknown_tool (s : OrchState) (e : StreamEvent) (t : String)
    (hcomp : s.selectedToolComponent = none) (hui : s.selectedToolUI = none)
    (hev : e.event = "on_chain_end") (hn : e.name = "invoke_model")
    (hobj : e.data.output.isTruthyObject = true)
    (htc : e.data.output.hasField "tool_calls" = true)
    (hlen : jsLenPos (e.data.output.get "tool_calls") = .ok true)
    (hty : (jsIndex0 (e.data.output.get "tool_calls")).get "type" = .str t)
    (hmap : TOOL_COMPONENT_MAP t = none) :
    step s e = .error (.typeError "Cannot read properties of undefined (reading loading)") := by
  unfold step stepHandlers dispatchEnd handleInvokeModelEvent
  simp [hev, hn, hobj, htc, hlen, hcomp, hui, hty, hmap, toolMapLookup,
    eventType_chain_end]

/-! ### Invariants -/

theorem modifyAt_length (l : List ToolUIStream) (idx : Nat) (f : ToolUIStream → ToolUIStream) :
    (modifyAt l idx f).length = l.length := by
  induction l generalizing idx with
  | nil => rfl
  | cons x xs ih =>
    cases idx with
    | zero => rfl
    | succ n => simpa [modifyAt] using ih n

theorem countTool_append (items : List Fragment) (f : Fragment) :
    countTool (items ++ [f]) = countTool items + (if f.isToolHandle then 1 else 0) := by
  by_cases h : f.isToolHandle = true
  · simp [countTool, List.filter_append, List.filter_cons, h]
  · simp [countTool, List.filter_append, List.filter_cons, h]

/-- All callback streams of a list are open. -/
def CbOpen (l : List (String × TextStream)) : Prop :=
  ∀ p ∈ l, p.2.closed = false

theorem cbOpen_appendCb {l : List (String × TextStream)} (h : CbOpen l)
    (k : String) (v : JSVal) : CbOpen (appendCb k v l) := by
  induction l with
  | nil => exact h
  | cons p rest ih =>
    obtain ⟨k', ts⟩ := p
    intro q hq
    unfold appendCb at hq
    split at hq
    · rcases List.mem_cons.mp hq with hq1 | hq2
      · subst hq1
        exact h (k', ts) (List.mem_cons_self _ _)
      · exact h q (List.mem_cons_of_mem _ hq2)
    · rcases List.mem_cons.mp hq with hq1 | hq2
      · subst hq1
        exact h (k', ts) (List.mem_cons_self _ _)
      · exact ih (fun r hr => h r (List.mem_cons_of_mem _ hr)) q hq2

theorem cbOpen_extend {l : List (String × TextStream)} (h : CbOpen l) (r : String) :
    CbOpen (l ++ [(r, TextStream.mk [] false)]) := by
  intro p hp
  rcases List.mem_append.mp hp with h1 | h2
  · exact h p h1
  · simp only [List.mem_singleton] at h2
    subst h2
    rfl

/-- Mid-pass invariant: the outer sink has not been closed and no callback
text stream has been closed — `done` only ever runs in the epilogue. -/
def NoCloseInv (s : OrchState) : Prop :=
  s.ui.doneCount = 0 ∧ CbOpen s.callbacks

theorem step_noClose {s : OrchState} {e : StreamEvent} {s' : OrchState}
    (h : step s e = .ok s') (hs : NoCloseInv s) : NoCloseInv s' := by
  refine step_pres h hs ?_ ?_ ?_ ?_
  · intro o s₁ h₁
    refine him_cases h₁ NoCloseInv hs ?_
    intro comp _ _
    exact ⟨hs.1, hs.2⟩
  · intro o
    refine hit_cases s o NoCloseInv hs ?_
    intro idx comp _ _
    exact ⟨hs.1, hs.2⟩
  · intro s₁ hs₁ r c
    refine hcs_cases s₁ r c NoCloseInv ?_ ?_
    · intro _
      exact ⟨hs₁.1, cbOpen_appendCb (cbOpen_extend hs₁.2 r) r _⟩
    · intro ts _
      exact ⟨hs₁.1, cbOpen_appendCb hs₁.2 r _⟩
  · intro s₁ hs₁ ev
    exact hs₁

theorem runLoop_noClose (evs : List StreamEvent) :
    NoCloseInv (runLoop initState evs).stateOf :=
  runLoop_pres (fun _ _ _ h hs => step_noClose h hs) evs initState ⟨rfl, by intro p hp; cases hp⟩

/-- A failed pass never closed the sink nor any callback stream. -/
theorem failed_no_cleanup (events : List StreamEvent) (err : JsErr) (sf : OrchState)
    (h : streamRunnableUI events = .failed err sf) :
    sf.ui.doneCount = 0 ∧ CbOpen sf.callbacks := by
  unfold streamRunnableUI at h
  split at h
  · exact absurd h (by simp)
  · rename_i err' s' heq
    have := runLoop_noClose events
    rw [heq] at this
    simp only [RunResult.stateOf] at this
    cases h
    exact this

/-- At-most-one-placeholder invariant. -/
def ToolInv (s : OrchState) : Prop :=
  countTool s.ui.items = s.toolStreams.length ∧
  s.toolStreams.length ≤ 1 ∧
  (s.selectedToolUI = none → s.toolStreams = [])

theorem step_toolInv {s : OrchState} {e : StreamEvent} {s' : OrchState}
    (h : step s e = .ok s') (hs : ToolInv s) : ToolInv s' := by
  refine step_pres h hs ?_ ?_ ?_ ?_
  · intro o s₁ h₁
    refine him_cases h₁ ToolInv hs ?_
    intro comp hcomp hui
    have hempty : s.toolStreams = [] := hs.2.2 hui
    refine ⟨?_, ?_, ?_⟩
    · simp [UIStream.append, countTool_append, Fragment.isToolHandle, hs.1]
    · simp [hempty]
    · intro hcontra
      simp at hcontra
  · intro o
    refine hit_cases s o ToolInv hs ?_
    intro idx comp hui hcomp
    refine ⟨?_, ?_, ?_⟩
    · simpa [modifyAt_length] using hs.1
    · simpa [modifyAt_length] using hs.2.1
    · intro hnone
      rw [hui] at hnone
      cases hnone
  · intro s₁ hs₁ r c
    refine hcs_cases s₁ r c ToolInv ?_ ?_
    · intro _
      refine ⟨?_, hs₁.2.1, hs₁.2.2⟩
      simp [UIStream.append, countTool_append, Fragment.isToolHandle, hs₁.1]
    · intro ts _
      exact hs₁
  · intro s₁ hs₁ ev
    exact hs₁

theorem runLoop_toolInv (evs : List StreamEvent) :
    ToolInv (runLoop initState evs).stateOf :=
  runLoop_pres (fun _ _ _ h hs => step_toolInv h hs) evs initState
    ⟨rfl, by simp [initState], by intro _; rfl⟩

/-- The whole pass appends at most one tool placeholder handle. -/
theorem run_countTool_le_one (events : List StreamEvent) :
    countTool (streamRunnableUI events).stateOf.ui.items ≤ 1 := by
  unfold streamRunnableUI
  have h := runLoop_toolInv events
  cases heq : runLoop initState events with
  | ok s =>
    rw [heq] at h
    simp only [RunResult.stateOf] at h ⊢
    calc countTool (finish s).ui.items = countTool s.ui.items := rfl
    _ = s.toolStreams.length := h.1
    _ ≤ 1 := h.2.1
  | failed err s =>
    rw [heq] at h
    simp only [RunResult.stateOf] at h ⊢
    calc countTool s.ui.items = s.toolStreams.length := h.1
    _ ≤ 1 := h.2.1

/-- On completion, `lastEventValue` is the last event of the sequence. -/
theorem runLoop_ok_last :
    ∀ (evs : List StreamEvent) (s s' : OrchState), runLoop s evs = .ok s' →
    s'.lastEventValue = (match evs.getLast? with
                         | none => s.lastEventValue
                         | some e => some e) := by
  intro evs
  induction evs with
  | nil =>
    intro s s' h
    simp only [runLoop] at h
    cases h
    rfl
  | cons e rest ih =>
    intro s s' h
    unfold runLoop at h
    cases hst : step s e with
    | ok s1 =>
      rw [hst] at h
      simp only [] at h
      have hr := ih s1 s' h
      cases hrest : rest with
      | nil =>
        subst hrest
        simpa [step_lastEvent hst] using hr
      | cons r rs =>
        subst hrest
        simpa [List.getLast?_cons_cons] using hr
    | error err =>
      rw [hst] at h
      exact absurd h (by simp)

/-! ### Chunk-only runs -/

/-- The state of a pass that has consumed one or more chunks of run `r`
and nothing else. -/
def midState (r : String) (acc : List JSVal) (last : Option StreamEvent) : OrchState :=
  { ui := ⟨[.textStreamHandle r], 0⟩, callbacks := [(r, ⟨acc, false⟩)],
    selectedToolComponent := none, selectedToolUI := none, toolStreams := [],
    lastEventValue := last, terminal := none }

theorem step_mkChunk_init (r c : String) :
    step initState (mkChunk r c) = .ok (midState r [.str c] (some (mkChunk r c))) := by
  unfold step stepHandlers dispatchEnd dispatchChat handleChatModelStreamEvent
  simp [mkChunk, initState, midState, eventType_chat_stream, model_ne_end,
    lookupCb, appendCb, UIStream.append, JSVal.get, JSVal.isTruthyObject]

theorem step_mkChunk_mid (r c : String) (acc : List JSVal) (last : Option StreamEvent) :
    step (midState r acc last) (mkChunk r c) =
      .ok (midState r (acc ++ [.str c]) (some (mkChunk r c))) := by
  unfold step stepHandlers dispatchEnd dispatchChat handleChatModelStreamEvent
  simp [mkChunk, midState, eventType_chat_stream, model_ne_end,
    lookupCb, appendCb, UIStream.append, JSVal.get, JSVal.isTruthyObject]

theorem runLoop_mkChunks (r : String) (cs : List String) (acc : List JSVal)
    (last : Option StreamEvent) :
    runLoop (midState r acc last) (cs.map (mkChunk r)) =
      .ok (midState r (acc ++ cs.map JSVal.str)
            (match cs.getLast? with
             | none => last
             | some c => some (mkChunk r c))) := by
  induction cs generalizing acc last with
  | nil => simp [runLoop]
  | cons c rest ih =>
    simp only [List.map_cons]
    unfold runLoop
    rw [step_mkChunk_mid]
    simp only []
    rw [ih]
    cases hrest : rest with
    | nil => simp
    | cons c2 cs2 =>
      simp only [List.getLast?_cons_cons]
      rw [List.getLast?_eq_getLast (c2 :: cs2) (by simp)]
      simp


/-- C2: for every event sequence made of one or more token-chunk
(`on_chat_model_stream`) events sharing a single run id and containing no
tool-selection event, the UI sink holds exactly one text-stream fragment
(the `AIMessage` handle appended at the first chunk only), the stream
accumulates the chunk contents in arrival order — its accumulated content
is their concatenation — and the terminal result resolves to
`undefined`. -/
theorem chunkOnly_single_text_fragment_concat (r : String) (cs : List String)
    (h : cs ≠ []) :
    streamRunnableUI (cs.map (mkChunk r)) =
      .ok { ui := ⟨[.textStreamHandle r], 1⟩,
            callbacks := [(r, ⟨cs.map JSVal.str, true⟩)],
            selectedToolComponent := none, selectedToolUI := none, toolStreams := [],
            lastEventValue := some (mkChunk r (cs.getLastD "")),
            terminal := some .undefined }
    ∧ TextStream.accumulated ⟨cs.map JSVal.str, true⟩ = String.join cs := by
  constructor
  · obtain ⟨c, cs', rfl⟩ : ∃ c cs', cs = c :: cs' := by
      cases cs with
      | nil => exact absurd rfl h
      | cons a b => exact ⟨a, b, rfl⟩
    unfold streamRunnableUI
    simp only [List.map_cons]
    unfold runLoop
    rw [step_mkChunk_init]
    simp only []
    rw [runLoop_mkChunks]
    cases hlast : cs'.getLast? with
    | none =>
      have hnil : cs' = [] := by simpa using hlast
      subst hnil
      simp [finish, lastOutputVal, mkChunk, midState]
    | some x =>
      cases cs' with
      | nil => simp at hlast
      | cons c2 cs2 =>
        simp [finish, lastOutputVal, mkChunk, midState,
          List.getLast?_cons_cons, hlast]
  · simp only [TextStream.accumulated, List.map_map,
      show (jsStringOf ∘ JSVal.str) = id from rfl, List.map_id]

/-- Witness for C2 at the spec scenario `["Hel", "lo"]` on run "a". -/
theorem chunkOnly_single_text_fragment_concat_witness :
    streamRunnableUI (["Hel", "lo"].map (mkChunk "a")) =
      .ok { ui := ⟨[.textStreamHandle "a"], 1⟩,
            callbacks := [("a", ⟨["Hel", "lo"].map JSVal.str, true⟩)],
            selectedToolComponent := none, selectedToolUI := none, toolStreams := [],
            lastEventValue := some (mkChunk "a" (["Hel", "lo"].getLastD "")),
            terminal := some .undefined }
    ∧ TextStream.accumulated ⟨["Hel", "lo"].map JSVal.str, true⟩ = String.join ["Hel", "lo"] :=
  chunkOnly_single_text_fragment_concat "a" ["Hel", "lo"] (by simp)


/-- Lookup `lookupCb` finds an entry appended at the back when the key was absent. -/
theorem lookupCb_append_self (k : String) (ts : TextStream) :
    ∀ l, lookupCb k l = none → lookupCb k (l ++ [(k, ts)]) = some ts := by
  intro l
  induction l with
  | nil => intro _; simp [lookupCb]
  | cons p rest ih =>
    obtain ⟨k', t⟩ := p
    intro h
    by_cases hk : k' = k
    · simp [lookupCb, hk] at h
    · simp only [List.cons_append, lookupCb, if_neg hk] at h ⊢
      exact ih h

/-- A state reached mid-pass with one selected tool. -/
def cState : OrchState :=
  { ui := ⟨[.toolStreamHandle 0], 0⟩, callbacks := [],
    selectedToolComponent := some ⟨"weather-data"⟩, selectedToolUI := some 0,
    toolStreams := [⟨.loading "weather-data", []⟩],
    lastEventValue := none, terminal := none }

/-- An `invoke_model` end event naming a tool absent from the map. -/
def unknownToolEvent : StreamEvent := mkToolSelect "r2" "stock-price"

/-- An `invoke_model` end event with a plain string `result` payload. -/
def mkPlainResult (r txt : String) : StreamEvent :=
  { event := "on_chain_end", name := "invoke_model", run_id := r,
    data := { output := .obj [("result", .str txt)], chunk := .undefined } }

-- ---------- C1 ----------

/-- C1: when an event-handling error is thrown (here: an unknown tool name
two events into the pass), the source's async IIFE has no `try`/`finally`,
so neither `resolve` nor any `done()` runs: the UI sink stays open
(`doneCount = 0`), the run-scoped text stream opened for run "a" stays
open (`closed = false`, its fragment still in the sink), and the terminal
promise is never resolved.  This contradicts the claim that the sink is
always closed after the pass, even on error. -/
theorem unknownTool_error_leaves_sink_and_streams_open :
    streamRunnableUI [mkChunk "a" "Hel", unknownToolEvent] =
      .failed (.typeError "Cannot read properties of undefined (reading loading)")
        (midState "a" [.str "Hel"] (some (mkChunk "a" "Hel")))
    ∧ (midState "a" [.str "Hel"] (some (mkChunk "a" "Hel"))).ui.doneCount = 0
    ∧ (midState "a" [.str "Hel"] (some (mkChunk "a" "Hel"))).callbacks =
        [("a", ⟨[.str "Hel"], false⟩)]
    ∧ (midState "a" [.str "Hel"] (some (mkChunk "a" "Hel"))).terminal = none :=
  ⟨rfl, rfl, rfl, rfl⟩

-- ---------- C3 ----------

/-- Counterexample to C3 as stated: a second tool-selection event while a
placeholder is open does NOT make the pass fail with a "tool conflict"
error — the pass completes normally (`isOk`), though the first
placeholder is indeed left unchanged. -/
theorem second_toolcall_no_conflict_error_cex :
    (streamRunnableUI [mkToolSelect "r1" "weather-data",
        mkToolSelect "r2" "github-repo"]).isOk = true
    ∧ (streamRunnableUI [mkToolSelect "r1" "weather-data",
        mkToolSelect "r2" "github-repo"]).stateOf.ui.items = [.toolStreamHandle 0]
    ∧ (streamRunnableUI [mkToolSelect "r1" "weather-data",
        mkToolSelect "r2" "github-repo"]).stateOf.toolStreams =
        [⟨.loading "weather-data", []⟩] :=
  ⟨rfl, rfl, rfl⟩

/-- C3 (amended): a model-invocation end event naming a tool call,
observed while a tool placeholder is already open, is silently skipped —
the step succeeds without error and leaves everything except
`lastEventValue` unchanged, so the first placeholder fragment in the UI
sink is untouched and no second placeholder is appended.  The code never
raises a "tool conflict" error. -/
theorem second_toolcall_silently_skipped (s : OrchState) (e : StreamEvent)
    (idx : Nat) (comp : ToolComponent)
    (hui : s.selectedToolUI = some idx) (hcomp : s.selectedToolComponent = some comp)
    (hev : e.event = "on_chain_end") (hn : e.name = "invoke_model")
    (hobj : e.data.output.isTruthyObject = true)
    (htc : e.data.output.hasField "tool_calls" = true)
    (hlen : jsLenPos (e.data.output.get "tool_calls") = .ok true) :
    step s e = .ok { s with lastEventValue := some e } :=
  step_toolcall_skip s e (by intro hc; rw [hui] at hc; exact Option.noConfusion hc.2)
    hev hn hobj htc hlen

/-- Witness for C3 (amended) at a mid-pass state with an open
"weather-data" placeholder. -/
theorem second_toolcall_silently_skipped_witness :
    step cState (mkToolSelect "r2" "github-repo") =
      .ok { cState with lastEventValue := some (mkToolSelect "r2" "github-repo") } :=
  second_toolcall_silently_skipped cState (mkToolSelect "r2" "github-repo") 0
    ⟨"weather-data"⟩ rfl rfl rfl rfl rfl rfl rfl

-- ---------- C4 ----------

/-- Counterexample to C4 as stated: a tool-invocation-completion event
with no previously opened placeholder does NOT fail with an "unmatched
tool result" error — the pass completes normally; no fragment is appended
for the event. -/
theorem unmatched_tool_result_no_error_cex :
    streamRunnableUI [mkToolResult "r1" (.obj [("temp", .int 72)])] =
      .ok { ui := ⟨[], 1⟩, callbacks := [], selectedToolComponent := none,
            selectedToolUI := none, toolStreams := [],
            lastEventValue := some (mkToolResult "r1" (.obj [("temp", .int 72)])),
            terminal := some (.obj [("tool_result", .obj [("temp", .int 72)])]) } :=
  rfl

/-- C4 (amended): an `invoke_tools` end event arriving with no open tool
placeholder is silently ignored: the step succeeds, raises no error, and
appends no fragment to the UI sink (only `lastEventValue` changes). -/
theorem unmatched_tool_result_silently_ignored (s : OrchState) (e : StreamEvent)
    (hui : s.selectedToolUI = none)
    (hev : e.event = "on_chain_end") (hn : e.name = "invoke_tools") :
    step s e = .ok { s with lastEventValue := some e }
    ∧ ({ s with lastEventValue := some e } : OrchState).ui.items = s.ui.items :=
  ⟨step_tools_skip s e hui hev hn, rfl⟩

/-- Witness for C4 (amended) from the initial state. -/
theorem unmatched_tool_result_silently_ignored_witness :
    step initState (mkToolResult "r9" (.str "late")) =
      .ok { initState with lastEventValue := some (mkToolResult "r9" (.str "late")) }
    ∧ ({ initState with
          lastEventValue := some (mkToolResult "r9" (.str "late")) } : OrchState).ui.items =
        initState.ui.items :=
  unmatched_tool_result_silently_ignored initState (mkToolResult "r9" (.str "late"))
    rfl rfl rfl

-- ---------- C5 ----------

/-- Counterexample to C5 as stated: selecting a tool absent from the map
fails with an incidental `TypeError` (reading `.loading` of `undefined`),
not a deliberate "unknown tool" error, and the UI sink is NOT closed
before the error propagates (`doneCount = 0` in the failure state). -/
theorem unknown_tool_typeError_no_cleanup_cex :
    streamRunnableUI [mkToolSelect "r1" "stock-price"] =
      .failed (.typeError "Cannot read properties of undefined (reading loading)")
        initState
    ∧ initState.ui.doneCount = 0
    ∧ JsErr.typeError "Cannot read properties of undefined (reading loading)" ≠
        JsErr.error "unknown tool" :=
  ⟨rfl, rfl, by decide⟩

/-- C5 (amended): a tool-selection event whose tool name has no entry in
`TOOL_COMPONENT_MAP` makes the pass throw the `TypeError` of reading
`.loading` on `undefined` (an incidental crash, not an "unknown tool"
protocol error), and on every failed pass no cleanup runs: the UI sink is
never closed and every run-scoped text stream opened before the failure
is still open. -/
theorem unknown_tool_crashes_without_cleanup :
    (∀ (s : OrchState) (e : StreamEvent) (t : String),
      s.selectedToolComponent = none → s.selectedToolUI = none →
      e.event = "on_chain_end" → e.name = "invoke_model" →
      e.data.output.isTruthyObject = true →
      e.data.output.hasField "tool_calls" = true →
      jsLenPos (e.data.output.get "tool_calls") = .ok true →
      (jsIndex0 (e.data.output.get "tool_calls")).get "type" = .str t →
      TOOL_COMPONENT_MAP t = none →
      step s e = .error (.typeError "Cannot read properties of undefined (reading loading)"))
    ∧ (∀ (events : List StreamEvent) (err : JsErr) (sf : OrchState),
      streamRunnableUI events = .failed err sf →
      sf.ui.doneCount = 0 ∧ CbOpen sf.callbacks) :=
  ⟨step_unknown_tool, failed_no_cleanup⟩

/-- Witness for C5 (amended): both conjuncts at the single-event run
selecting the unmapped tool "crypto-price". -/
theorem unknown_tool_crashes_without_cleanup_witness :
    step initState (mkToolSelect "r5" "crypto-price") =
      .error (.typeError "Cannot read properties of undefined (reading loading)")
    ∧ (initState.ui.doneCount = 0 ∧ CbOpen initState.callbacks) :=
  ⟨unknown_tool_crashes_without_cleanup.1 initState (mkToolSelect "r5" "crypto-price")
      "crypto-price" rfl rfl rfl rfl rfl rfl rfl rfl (by decide),
   unknown_tool_crashes_without_cleanup.2 [mkToolSelect "r5" "crypto-price"]
      (.typeError "Cannot read properties of undefined (reading loading)") initState rfl⟩

-- ---------- C6 ----------

/-- Counterexample to C6 as stated: the terminal promise resolves with
the output of the LAST event, not of the last event that carried output
data — here the first event carries output "X", the final event carries
none, and the terminal resolves to `undefined`, not "X". -/
theorem terminal_ignores_earlier_output_cex :
    (streamRunnableUI [mkPlainOutput "r1" (.str "X"), mkStart "r2"]).isOk = true
    ∧ (streamRunnableUI [mkPlainOutput "r1" (.str "X"), mkStart "r2"]).stateOf.terminal =
        some JSVal.undefined
    ∧ (mkPlainOutput "r1" (.str "X")).data.output = .str "X"
    ∧ (mkStart "r2").data.output = .undefined
    ∧ some JSVal.undefined ≠ some (JSVal.str "X") :=
  ⟨rfl, rfl, rfl, rfl, by simp⟩

/-- C6 (amended): on every pass that completes without error, the
terminal promise is resolved exactly once, after the source iteration, 
with the final event payload `lastEventValue?.data.output` — `undefined`
when the sequence is empty or its last event carried no output data. -/
theorem terminal_is_last_event_output (events : List StreamEvent)
    (h : (streamRunnableUI events).isOk = true) :
    (streamRunnableUI events).stateOf.terminal = some (lastOutputOf events) := by
  unfold streamRunnableUI at h ⊢
  cases heq : runLoop initState events with
  | ok s =>
    dsimp only []
    simp only [RunResult.stateOf]
    have hl := runLoop_ok_last events initState s heq
    unfold finish lastOutputVal lastOutputOf
    cases hle : events.getLast? with
    | none =>
      rw [hle] at hl
      simp only [initState] at hl
      simp [hl]
    | some e =>
      rw [hle] at hl
      simp [hl]
  | failed err s =>
    rw [heq] at h
    simp [RunResult.isOk] at h

/-- Witness for C6 (amended) on a one-event sequence with no output. -/
theorem terminal_is_last_event_output_witness :
    (streamRunnableUI [mkStart "w1"]).stateOf.terminal =
      some (lastOutputOf [mkStart "w1"]) :=
  terminal_is_last_event_output [mkStart "w1"] rfl

-- ---------- C7 ----------

/-- Counterexample to C7 as stated: in the weather scenario the terminal
result resolves to the whole output payload `{tool_result: {temp: 72}}`,
not to `{temp: 72}`. -/
theorem scenario_weather_terminal_full_payload_cex :
    (streamRunnableUI [mkToolSelect "r1" "weather-data",
        mkToolResult "r2" (.obj [("temp", .int 72)])]).stateOf.terminal =
      some (.obj [("tool_result", .obj [("temp", .int 72)])])
    ∧ some (JSVal.obj [("tool_result", JSVal.obj [("temp", JSVal.int 72)])]) ≠
        some (JSVal.obj [("temp", JSVal.int 72)]) :=
  ⟨rfl, by simp⟩

/-- C7 (amended): for the weather scenario — a tool-selection of
"weather-data" followed by a tool completion carrying
`{tool_result: {temp: 72}}` — the UI sink holds a single placeholder slot
whose stream starts as the loading node and is swapped in place (`done`)
to the final node applied to `{temp: 72}`; never two separate slots.  The
terminal result resolves to the full payload
`{tool_result: {temp: 72}}`. -/
theorem scenario_weather_single_slot_swap :
    streamRunnableUI [mkToolSelect "r1" "weather-data",
        mkToolResult "r2" (.obj [("temp", .int 72)])] =
      .ok { ui := ⟨[.toolStreamHandle 0], 1⟩,
            callbacks := [],
            selectedToolComponent := some ⟨"weather-data"⟩,
            selectedToolUI := some 0,
            toolStreams := [⟨.loading "weather-data",
              [.final "weather-data" (.obj [("temp", .int 72)])]⟩],
            lastEventValue := some (mkToolResult "r2" (.obj [("temp", .int 72)])),
            terminal := some (.obj [("tool_result", .obj [("temp", .int 72)])]) } :=
  rfl

-- ---------- C9 ----------

/-- Counterexample to C9 as stated: after a successful finalize the
"currently open" record is NOT cleared — `selectedToolUI` and
`selectedToolComponent` survive the whole pass, and a second
tool-completion event transitions the same placeholder a second time
(two `done` calls on its stream). -/
theorem finalize_does_not_clear_record_cex :
    (streamRunnableUI [mkToolSelect "r1" "weather-data",
        mkToolResult "r2" (.obj [("temp", .int 72)]),
        mkToolResult "r3" (.obj [("temp", .int 72)])]).stateOf.selectedToolUI = some 0
    ∧ (streamRunnableUI [mkToolSelect "r1" "weather-data",
        mkToolResult "r2" (.obj [("temp", .int 72)]),
        mkToolResult "r3" (.obj [("temp", .int 72)])]).stateOf.selectedToolComponent =
        some ⟨"weather-data"⟩
    ∧ (streamRunnableUI [mkToolSelect "r1" "weather-data",
        mkToolResult "r2" (.obj [("temp", .int 72)]),
        mkToolResult "r3" (.obj [("temp", .int 72)])]).stateOf.toolStreams =
        [⟨.loading "weather-data",
          [.final "weather-data" (.obj [("temp", .int 72)]),
           .final "weather-data" (.obj [("temp", .int 72)])]⟩] :=
  ⟨rfl, rfl, rfl⟩

/-- C9 (amended): finalizing an open tool placeholder transitions its
sink handle (a `done` with the final node) but leaves the "currently
open" record — `selectedToolUI` and `selectedToolComponent` — set, so a
later tool-completion event transitions the placeholder again.  (A
placeholder is still never *reopened*: the selection guard of
`handleInvokeModelEvent` never sees an empty selection again.) -/
theorem finalize_keeps_record_open_and_retransitions (s : OrchState) (e : StreamEvent)
    (idx : Nat) (comp : ToolComponent)
    (hui : s.selectedToolUI = some idx) (hcomp : s.selectedToolComponent = some comp)
    (hev : e.event = "on_chain_end") (hn : e.name = "invoke_tools")
    (hobj : e.data.output.isTruthyObject = true) :
    step s e = .ok { s with
      toolStreams := (modifyAt s.toolStreams idx
        (fun ts => { ts with dones := ts.dones ++ [comp.final (e.data.output.get "tool_result")] })),
      lastEventValue := some e }
    ∧ ({ s with
          toolStreams := (modifyAt s.toolStreams idx
            (fun ts => { ts with dones := ts.dones ++ [comp.final (e.data.output.get "tool_result")] })),
          lastEventValue := some e } : OrchState).selectedToolUI = some idx
    ∧ ({ s with
          toolStreams := (modifyAt s.toolStreams idx
            (fun ts => { ts with dones := ts.dones ++ [comp.final (e.data.output.get "tool_result")] })),
          lastEventValue := some e } : OrchState).selectedToolComponent = some comp :=
  ⟨step_tools_finalize s e idx comp hui hcomp hev hn hobj, by simp [hui], by simp [hcomp]⟩

/-- Witness for C9 (amended) at a mid-pass state with an open
"weather-data" placeholder. -/
theorem finalize_keeps_record_open_and_retransitions_witness :
    step cState (mkToolResult "r2" (.obj [("temp", .int 72)])) = .ok { cState with
      toolStreams := (modifyAt cState.toolStreams 0
        (fun ts => { ts with dones := ts.dones ++
          [ToolComponent.final ⟨"weather-data"⟩
            ((mkToolResult "r2" (.obj [("temp", .int 72)])).data.output.get "tool_result")] })),
      lastEventValue := some (mkToolResult "r2" (.obj [("temp", .int 72)])) }
    ∧ ({ cState with
          toolStreams := (modifyAt cState.toolStreams 0
            (fun ts => { ts with dones := ts.dones ++
              [ToolComponent.final ⟨"weather-data"⟩
                ((mkToolResult "r2" (.obj [("temp", .int 72)])).data.output.get "tool_result")] })),
          lastEventValue := some (mkToolResult "r2" (.obj [("temp", .int 72)])) } :
            OrchState).selectedToolUI = some 0
    ∧ ({ cState with
          toolStreams := (modifyAt cState.toolStreams 0
            (fun ts => { ts with dones := ts.dones ++
              [ToolComponent.final ⟨"weather-data"⟩
                ((mkToolResult "r2" (.obj [("temp", .int 72)])).data.output.get "tool_result")] })),
          lastEventValue := some (mkToolResult "r2" (.obj [("temp", .int 72)])) } :
            OrchState).selectedToolComponent = some ⟨"weather-data"⟩ :=
  finalize_keeps_record_open_and_retransitions cState
    (mkToolResult "r2" (.obj [("temp", .int 72)])) 0 ⟨"weather-data"⟩ rfl rfl rfl rfl rfl

-- ---------- C10 ----------

/-- C10: within a single pass at most one tool loading fragment is ever
appended to the UI sink: once the selected-tool state is set by the first
tool-call-bearing model-invocation end event, every later tool-call
bearing event is silently skipped (selected state and existing sink
fragments unchanged, even after finalize), and over every event sequence
the sink ends with at most one tool placeholder handle. -/
theorem at_most_one_tool_placeholder :
    (∀ (s : OrchState) (e : StreamEvent),
      ¬(s.selectedToolComponent = none ∧ s.selectedToolUI = none) →
      e.event = "on_chain_end" → e.name = "invoke_model" →
      e.data.output.isTruthyObject = true →
      e.data.output.hasField "tool_calls" = true →
      jsLenPos (e.data.output.get "tool_calls") = .ok true →
      step s e = .ok { s with lastEventValue := some e })
    ∧ (∀ events : List StreamEvent,
      countTool (streamRunnableUI events).stateOf.ui.items ≤ 1) :=
  ⟨step_toolcall_skip, run_countTool_le_one⟩

/-- Witness for C10: the skip at a state with an open placeholder, and
the global bound on a two-tool-call run. -/
theorem at_most_one_tool_placeholder_witness :
    step cState (mkToolSelect "r8" "invoice-parser") =
      .ok { cState with lastEventValue := some (mkToolSelect "r8" "invoice-parser") }
    ∧ countTool (streamRunnableUI [mkToolSelect "r8" "invoice-parser",
        mkToolSelect "r9" "github-repo"]).stateOf.ui.items ≤ 1 :=
  ⟨at_most_one_tool_placeholder.1 cState (mkToolSelect "r8" "invoice-parser")
      (by intro hc; exact Option.noConfusion hc.1) rfl rfl rfl rfl rfl,
   at_most_one_tool_placeholder.2 [mkToolSelect "r8" "invoice-parser",
      mkToolSelect "r9" "github-repo"]⟩

-- ---------- C8 ----------

/-- C8: in the second variant, a model-invocation end event whose output
is a plain string `result` with no tool call is routed to the per-run
text streams: if no stream exists for the event run id, one is created
and its `AIMessage` handle appended to the UI sink, and the text is
appended to that stream; if one exists, the text is appended to it and
nothing new is appended to the sink. -/
theorem plain_text_result_routed_to_text_stream (s : Orch2State) (e : StreamEvent)
    (txt : String)
    (hev : e.event = "on_chain_end") (hn : e.name = "invoke_model")
    (hobj : e.data.output.isTruthyObject = true)
    (htc : e.data.output.hasField "tool_calls" = false)
    (hres : e.data.output.hasField "result" = true)
    (hstr : e.data.output.get "result" = .str txt) :
    (lookupCb e.run_id s.callbacks = none →
      step2 s e = .ok { s with
        ui := s.ui.append (.textStreamHandle e.run_id),
        callbacks := (appendCb e.run_id (.str txt)
          (s.callbacks ++ [(e.run_id, TextStream.mk [] false)])),
        lastEventValue := some e })
    ∧ (∀ ts, lookupCb e.run_id s.callbacks = some ts →
      step2 s e = .ok { s with
        callbacks := (appendCb e.run_id (.str txt) s.callbacks),
        lastEventValue := some e }) := by
  constructor
  · intro hnone
    unfold step2
    simp [hev, hn, hobj, htc, hres, hstr, eventType_chain_end, hnone,
      JSVal.isString, lookupCb_append_self e.run_id (TextStream.mk [] false) s.callbacks hnone]
  · intro ts hsome
    unfold step2
    simp [hev, hn, hobj, htc, hres, hstr, eventType_chain_end, hsome, JSVal.isString]

/-- Witness for C8: the creation case from the initial state. -/
theorem plain_text_result_routed_to_text_stream_witness :
    step2 init2State (mkPlainResult "r7" "hi") = .ok { init2State with
      ui := init2State.ui.append (.textStreamHandle (mkPlainResult "r7" "hi").run_id),
      callbacks := (appendCb (mkPlainResult "r7" "hi").run_id (.str "hi")
        (init2State.callbacks ++ [((mkPlainResult "r7" "hi").run_id, TextStream.mk [] false)])),
      lastEventValue := some (mkPlainResult "r7" "hi") } :=
  (plain_text_result_routed_to_text_stream init2State (mkPlainResult "r7" "hi") "hi"
    rfl rfl rfl rfl rfl rfl).1 rfl

end GenUI
